import Mathlib

/-!
Verification of the nanocbf CBF frame codec (`CBFFrame` in the `nanocbf`
namespace of the C++ source).  The development shallowly embeds the byte
stream as `List Nat` (each element a byte value) and pixel data as
`List Int` (each element a 32-bit signed integer value); 32-bit wraparound
arithmetic is made explicit through `wrap32`.
-/

namespace NanoCBF

/-- Reduce an integer to the value of its low 32 bits read as a signed
32-bit two's-complement number.  Models C++ `int32_t` wraparound. -/
def wrap32 (x : Int) : Int := (x + 2147483648) % 4294967296 - 2147483648

/-- Value of a byte reinterpreted as a signed 8-bit integer
(`static_cast<int8_t>` of a `uint8_t`). -/
def sign8 (b : Nat) : Int := if b < 128 then (b : Int) else (b : Int) - 256

/-- Value of an unsigned 16-bit pattern reinterpreted as signed 16-bit. -/
def sign16 (u : Nat) : Int := if u < 32768 then (u : Int) else (u : Int) - 65536

/-- Value of an unsigned 32-bit pattern reinterpreted as signed 32-bit. -/
def sign32 (u : Nat) : Int :=
  if u < 2147483648 then (u : Int) else (u : Int) - 4294967296

/-- `static_cast<uint8_t>` of a signed 32-bit value: its low byte. -/
def byte8 (d : Int) : Nat := (d % 256).toNat

/-- `CBFFrame::writeInt16LE`: the two little-endian bytes of `d` as a
signed 16-bit value (`value & 0xFF`, `(value >> 8) & 0xFF`). -/
def writeInt16LE (d : Int) : List Nat :=
  [(d % 65536).toNat % 256, (d % 65536).toNat / 256 % 256]

/-- `CBFFrame::writeInt32LE`: the four little-endian bytes of `d` as a
signed 32-bit value. -/
def writeInt32LE (d : Int) : List Nat :=
  [(d % 4294967296).toNat % 256, (d % 4294967296).toNat / 256 % 256,
   (d % 4294967296).toNat / 65536 % 256, (d % 4294967296).toNat / 16777216 % 256]

/-- The loop body of `CBFFrame::compressData`: `cur` is the running
`currentValue` accumulator (an `int32_t`, 0 at the start). -/
def compressLoop : Int → List Int → List Nat
  | _, [] => []
  | cur, pixel :: rest =>
    let delta := wrap32 (pixel - cur)
    if -127 ≤ delta ∧ delta ≤ 127 then
      byte8 delta :: compressLoop pixel rest
    else if -32767 ≤ delta ∧ delta ≤ 32767 then
      128 :: (writeInt16LE delta ++ compressLoop pixel rest)
    else
      128 :: (writeInt16LE (-32768) ++ (writeInt32LE delta ++ compressLoop pixel rest))

/-- `CBFFrame::compressData`: byte-offset compression of a pixel sequence,
with the accumulator starting at 0. -/
def compressData (data : List Int) : List Nat := compressLoop 0 data

/-- The loop of `CBFFrame::decompressData`.  The first argument is the
remaining number of samples still allowed (`width*height - data.size()`),
the second the `currentValue` accumulator, the third the remaining bytes.
The `=> []` arms are the `break` statements for a stream that ends
mid-escape-sequence.  (Byte pairs are recombined by addition, which agrees
with the C++ `|`/`<<` recombination on byte values `< 256`.) -/
def decompressLoop : Nat → Int → List Nat → List Int
  | 0, _, _ => []
  | _ + 1, _, [] => []
  | fuel + 1, cur, b :: rest =>
    if b = 128 then
      match rest with
      | b0 :: b1 :: rest2 =>
        if b0 + b1 * 256 = 32768 then
          match rest2 with
          | c0 :: c1 :: c2 :: c3 :: rest3 =>
            let cur2 := wrap32 (cur + sign32 (c0 + c1 * 256 + c2 * 65536 + c3 * 16777216))
            cur2 :: decompressLoop fuel cur2 rest3
          | _ => []
        else
          let cur2 := wrap32 (cur + sign16 (b0 + b1 * 256))
          cur2 :: decompressLoop fuel cur2 rest2
      | _ => []
    else
      let cur2 := wrap32 (cur + sign8 b)
      cur2 :: decompressLoop fuel cur2 rest

/-- The sample bound `width * height` as the loop of
`CBFFrame::decompressData` sees it: the `int` product (with wraparound)
converted to `size_t` (reduced mod 2^64), because `data.size() <
width * height` compares a `size_t` against an `int`. -/
def expectedCountSizeT (w h : Int) : Nat :=
  (wrap32 (w * h) % 18446744073709551616).toNat

/-- `CBFFrame::decompressData`. -/
def decompressData (compressed : List Nat) (w h : Int) : List Int :=
  decompressLoop (expectedCountSizeT w h) 0 compressed

/-! ### Arithmetic facts about the 32-bit embedding -/

theorem wrap32_range (x : Int) : -2147483648 ≤ wrap32 x ∧ wrap32 x < 2147483648 := by
  unfold wrap32; omega

theorem wrap32_eq_self {x : Int} (h1 : -2147483648 ≤ x) (h2 : x < 2147483648) :
    wrap32 x = x := by
  unfold wrap32; omega

theorem wrap32_add_wrap32 (a b : Int) : wrap32 (a + wrap32 b) = wrap32 (a + b) := by
  unfold wrap32; omega

theorem sign8_byte8 {d : Int} (h1 : -127 ≤ d) (h2 : d ≤ 127) :
    sign8 (byte8 d) = d := by
  unfold sign8 byte8; split <;> omega

theorem byte8_ne_128 {d : Int} (h1 : -127 ≤ d) (h2 : d ≤ 127) :
    byte8 d ≠ 128 := by
  unfold byte8; omega

/-! ### Reduction lemmas for the codec loops -/

theorem compressLoop_cons_small {cur pixel : Int} (rest : List Int)
    (h : -127 ≤ wrap32 (pixel - cur) ∧ wrap32 (pixel - cur) ≤ 127) :
    compressLoop cur (pixel :: rest) =
      byte8 (wrap32 (pixel - cur)) :: compressLoop pixel rest := by
  simp only [compressLoop]
  rw [if_pos h]

theorem compressLoop_cons_med {cur pixel : Int} (rest : List Int)
    (h : ¬(-127 ≤ wrap32 (pixel - cur) ∧ wrap32 (pixel - cur) ≤ 127))
    (h2 : -32767 ≤ wrap32 (pixel - cur) ∧ wrap32 (pixel - cur) ≤ 32767) :
    compressLoop cur (pixel :: rest) =
      128 :: (writeInt16LE (wrap32 (pixel - cur)) ++ compressLoop pixel rest) := by
  simp only [compressLoop]
  rw [if_neg h, if_pos h2]

theorem compressLoop_cons_big {cur pixel : Int} (rest : List Int)
    (h : ¬(-127 ≤ wrap32 (pixel - cur) ∧ wrap32 (pixel - cur) ≤ 127))
    (h2 : ¬(-32767 ≤ wrap32 (pixel - cur) ∧ wrap32 (pixel - cur) ≤ 32767)) :
    compressLoop cur (pixel :: rest) =
      128 :: (writeInt16LE (-32768) ++
        (writeInt32LE (wrap32 (pixel - cur)) ++ compressLoop pixel rest)) := by
  simp only [compressLoop]
  rw [if_neg h, if_neg h2]

theorem decompressLoop_small (fuel : Nat) (cur : Int) (b : Nat) (rest : List Nat)
    (hb : ¬ b = 128) :
    decompressLoop (fuel + 1) cur (b :: rest) =
      wrap32 (cur + sign8 b) :: decompressLoop fuel (wrap32 (cur + sign8 b)) rest := by
  simp only [decompressLoop]
  rw [if_neg hb]

theorem decompressLoop_med (fuel : Nat) (cur : Int) (b0 b1 : Nat) (rest : List Nat)
    (hb : ¬ b0 + b1 * 256 = 32768) :
    decompressLoop (fuel + 1) cur (128 :: b0 :: b1 :: rest) =
      wrap32 (cur + sign16 (b0 + b1 * 256)) ::
        decompressLoop fuel (wrap32 (cur + sign16 (b0 + b1 * 256))) rest := by
  simp only [decompressLoop, if_true]
  rw [if_neg hb]

theorem decompressLoop_big (fuel : Nat) (cur : Int) (c0 c1 c2 c3 : Nat) (rest : List Nat) :
    decompressLoop (fuel + 1) cur (128 :: 0 :: 128 :: c0 :: c1 :: c2 :: c3 :: rest) =
      wrap32 (cur + sign32 (c0 + c1 * 256 + c2 * 65536 + c3 * 16777216)) ::
        decompressLoop fuel
          (wrap32 (cur + sign32 (c0 + c1 * 256 + c2 * 65536 + c3 * 16777216))) rest := by
  simp only [decompressLoop]
  norm_num

/-! ### The round-trip induction -/

theorem decompressLoop_compressLoop (S : List Int) :
    ∀ (fuel : Nat) (cur : Int) (t : List Nat),
      (∀ x ∈ S, -2147483648 ≤ x ∧ x < 2147483648) →
      S.length ≤ fuel →
      (∀ (f : Nat) (c : Int), decompressLoop f c t = []) →
      decompressLoop fuel cur (compressLoop cur S ++ t) = S := by
  induction S with
  | nil =>
    intro fuel cur t _ _ ht
    simpa [compressLoop] using ht fuel cur
  | cons pixel rest ih =>
    intro fuel cur t hS hlen ht
    match fuel with
    | 0 => simp at hlen
    | f + 1 =>
      have hpr : -2147483648 ≤ wrap32 (pixel - cur) ∧ wrap32 (pixel - cur) < 2147483648 :=
        wrap32_range (pixel - cur)
      have hpixr : -2147483648 ≤ pixel ∧ pixel < 2147483648 := hS pixel (by simp)
      have hpix : wrap32 (cur + wrap32 (pixel - cur)) = pixel := by
        rw [wrap32_add_wrap32]
        have e : cur + (pixel - cur) = pixel := by ring
        rw [e, wrap32_eq_self hpixr.1 hpixr.2]
      have hrest : ∀ x ∈ rest, -2147483648 ≤ x ∧ x < 2147483648 := by
        intro x hx; exact hS x (by simp [hx])
      have hlen' : rest.length ≤ f := by simpa using hlen
      by_cases h1 : -127 ≤ wrap32 (pixel - cur) ∧ wrap32 (pixel - cur) ≤ 127
      · rw [compressLoop_cons_small rest h1, List.cons_append,
          decompressLoop_small f cur _ _ (byte8_ne_128 h1.1 h1.2),
          sign8_byte8 h1.1 h1.2, hpix, ih f pixel t hrest hlen' ht]
      · by_cases h2 : -32767 ≤ wrap32 (pixel - cur) ∧ wrap32 (pixel - cur) ≤ 32767
        · rw [compressLoop_cons_med rest h1 h2]
          have hsent : ¬ ((wrap32 (pixel - cur) % 65536).toNat % 256 +
              (wrap32 (pixel - cur) % 65536).toNat / 256 % 256 * 256 = 32768) := by
            omega
          have hdec : sign16 ((wrap32 (pixel - cur) % 65536).toNat % 256 +
              (wrap32 (pixel - cur) % 65536).toNat / 256 % 256 * 256) =
              wrap32 (pixel - cur) := by
            unfold sign16; split <;> omega
          simp only [writeInt16LE, List.cons_append, List.append_assoc, List.nil_append]
          rw [decompressLoop_med f cur _ _ _ hsent, hdec, hpix,
            ih f pixel t hrest hlen' ht]
        · rw [compressLoop_cons_big rest h1 h2,
            show writeInt16LE (-32768) = [0, 128] from by decide]
          have hdec : sign32 ((wrap32 (pixel - cur) % 4294967296).toNat % 256 +
              (wrap32 (pixel - cur) % 4294967296).toNat / 256 % 256 * 256 +
              (wrap32 (pixel - cur) % 4294967296).toNat / 65536 % 256 * 65536 +
              (wrap32 (pixel - cur) % 4294967296).toNat / 16777216 % 256 * 16777216) =
              wrap32 (pixel - cur) := by
            unfold sign32; split <;> omega
          simp only [writeInt32LE, List.cons_append, List.append_assoc, List.nil_append]
          rw [decompressLoop_big f cur _ _ _ _ _, hdec, hpix,
            ih f pixel t hrest hlen' ht]

theorem decompressLoop_nil (f : Nat) (c : Int) : decompressLoop f c [] = [] := by
  cases f <;> simp [decompressLoop]

/-- Claim C1: codec round trip.  Decompressing the output of
`compressData S` with `expectedCount = width * height = S.length` (all
bytes present) returns exactly `S`; both directions use 32-bit signed
wraparound accumulator arithmetic starting from 0. -/
theorem compressData_decompressData_roundtrip (S : List Int) (w h : Int)
    (hS : ∀ x ∈ S, -2147483648 ≤ x ∧ x < 2147483648)
    (hw : 0 ≤ w) (hh : 0 ≤ h) (hwh : w * h = S.length)
    (hbound : (S.length : Int) < 2147483648) :
    decompressData (compressData S) w h = S := by
  unfold decompressData expectedCountSizeT compressData
  have h0 : 0 ≤ w * h := mul_nonneg hw hh
  rw [wrap32_eq_self (by omega) (by omega), hwh]
  have hcnt : (((S.length : Int)) % 18446744073709551616).toNat = S.length := by omega
  rw [hcnt]
  have := decompressLoop_compressLoop S S.length 0 []
    hS le_rfl (fun f c => decompressLoop_nil f c)
  simpa using this

/-- Witness for C1 at a concrete pixel sequence exercising all three
byte-width tiers (deltas 5, -205, 100205, -32768). -/
theorem compressData_decompressData_roundtrip_witness :
    (∀ x ∈ ([5, -200, 100000, 67232] : List Int), -2147483648 ≤ x ∧ x < 2147483648) ∧
    decompressData (compressData [5, -200, 100000, 67232]) 2 2 = [5, -200, 100000, 67232] :=
  ⟨by decide,
    compressData_decompressData_roundtrip [5, -200, 100000, 67232] 2 2
      (by decide) (by decide) (by decide) (by decide) (by decide)⟩

/-! ### Claim C2: tier selection -/

/-- Modelled from the spec's wording: a delta as one two's-complement
signed byte. -/
def specSignedByte (d : Int) : Nat := (if 0 ≤ d then d else d + 256).toNat

/-- Modelled from the spec's wording: a delta as a signed 16-bit
little-endian integer (two's complement). -/
def specInt16LE (d : Int) : List Nat :=
  [(if 0 ≤ d then d else d + 65536).toNat % 256,
   (if 0 ≤ d then d else d + 65536).toNat / 256]

/-- Modelled from the spec's wording: a delta as a signed 32-bit
little-endian integer (two's complement). -/
def specInt32LE (d : Int) : List Nat :=
  [(if 0 ≤ d then d else d + 4294967296).toNat % 256,
   (if 0 ≤ d then d else d + 4294967296).toNat / 256 % 256,
   (if 0 ≤ d then d else d + 4294967296).toNat / 65536 % 256,
   (if 0 ≤ d then d else d + 4294967296).toNat / 16777216]

/-- The bytes the spec says one sample with delta `d` must produce:
one signed byte for `d ∈ [-127,127]`; escape byte `0x80` plus 16-bit LE
for `d ∈ [-32767,32767]` outside that; otherwise `0x80`, the 16-bit
sentinel `0x8000` little-endian (bytes `0x00 0x80`), plus 32-bit LE. -/
def specEmit (d : Int) : List Nat :=
  if -127 ≤ d ∧ d ≤ 127 then [specSignedByte d]
  else if -32767 ≤ d ∧ d ≤ 32767 then 128 :: specInt16LE d
  else 128 :: 0 :: 128 :: specInt32LE d

/-- Claim C2: for every sample, `compressData`'s loop emits exactly the
spec-mandated tier encoding of the (wrapped 32-bit) delta — in
particular a delta of exactly -32768 falls in the final (32-bit) tier,
since `-32767 ≤ d` fails for it. -/
theorem compressLoop_tier_selection (cur pixel : Int) (rest : List Int) :
    compressLoop cur (pixel :: rest) =
      specEmit (wrap32 (pixel - cur)) ++ compressLoop pixel rest := by
  have hr := wrap32_range (pixel - cur)
  by_cases h1 : -127 ≤ wrap32 (pixel - cur) ∧ wrap32 (pixel - cur) ≤ 127
  · rw [compressLoop_cons_small rest h1]
    unfold specEmit
    rw [if_pos h1]
    unfold specSignedByte byte8
    simp only [List.cons_append, List.nil_append, List.cons.injEq, and_true]
    split <;> omega
  · by_cases h2 : -32767 ≤ wrap32 (pixel - cur) ∧ wrap32 (pixel - cur) ≤ 32767
    · rw [compressLoop_cons_med rest h1 h2]
      unfold specEmit
      rw [if_neg h1, if_pos h2]
      unfold specInt16LE writeInt16LE
      simp only [List.cons_append, List.nil_append, List.cons.injEq, true_and, and_true]
      split <;> omega
    · rw [compressLoop_cons_big rest h1 h2,
        show writeInt16LE (-32768) = [0, 128] from by decide]
      unfold specEmit
      rw [if_neg h1, if_neg h2]
      unfold specInt32LE writeInt32LE
      simp only [List.cons_append, List.nil_append, List.cons.injEq, true_and, and_true]
      split <;> omega

/-! ### Claim C3: graceful handling of truncated escape sequences -/

/-- Byte streams that are a whole number of encoded samples
(the decoder consumes them without ever stopping inside a token). -/
inductive Tokens : List Nat → Prop where
  | nil : Tokens []
  | small (b : Nat) (rest : List Nat) :
      b < 256 → b ≠ 128 → Tokens rest → Tokens (b :: rest)
  | med (b0 b1 : Nat) (rest : List Nat) :
      b0 < 256 → b1 < 256 → b0 + b1 * 256 ≠ 32768 →
      Tokens rest → Tokens (128 :: b0 :: b1 :: rest)
  | big (c0 c1 c2 c3 : Nat) (rest : List Nat) :
      c0 < 256 → c1 < 256 → c2 < 256 → c3 < 256 →
      Tokens rest → Tokens (128 :: 0 :: 128 :: c0 :: c1 :: c2 :: c3 :: rest)

/-- A byte sequence that ends in the middle of an escape sequence:
a `0x80` escape byte followed by fewer than 2 bytes, or the `0x8000`
sentinel (bytes `0x80 0x00 0x80`) followed by fewer than 4 bytes. -/
def IncompleteEscape (t : List Nat) : Prop :=
  t = [128] ∨ (∃ b, b < 256 ∧ t = [128, b]) ∨
    (∃ u, u.length ≤ 3 ∧ (∀ b ∈ u, b < 256) ∧ t = 128 :: 0 :: 128 :: u)

theorem decompressLoop_incomplete {t : List Nat} (ht : IncompleteEscape t)
    (f : Nat) (c : Int) : decompressLoop f c t = [] := by
  rcases ht with h | ⟨b, _, h⟩ | ⟨u, hu, _, h⟩ <;> subst h
  · cases f <;> simp [decompressLoop]
  · cases f <;> simp [decompressLoop]
  · rcases u with _ | ⟨x, _ | ⟨y, _ | ⟨z, _ | ⟨w, u'⟩⟩⟩⟩
    · cases f <;> simp [decompressLoop]
    · cases f <;> simp [decompressLoop]
    · cases f <;> simp [decompressLoop]
    · cases f <;> simp [decompressLoop]
    · simp at hu

theorem decompressLoop_append_incomplete {B : List Nat} (hB : Tokens B)
    {t : List Nat} (ht : IncompleteEscape t) :
    ∀ (fuel : Nat) (cur : Int),
      decompressLoop fuel cur (B ++ t) = decompressLoop fuel cur B := by
  induction hB with
  | nil =>
    intro fuel cur
    rw [List.nil_append, decompressLoop_incomplete ht, decompressLoop_nil]
  | small b rest _ hbne _ ih =>
    intro fuel cur
    cases fuel with
    | zero => simp [decompressLoop]
    | succ f =>
      rw [List.cons_append, decompressLoop_small f cur b _ hbne,
        decompressLoop_small f cur b rest hbne, ih]
  | med b0 b1 rest _ _ hsent _ ih =>
    intro fuel cur
    cases fuel with
    | zero => simp [decompressLoop]
    | succ f =>
      simp only [List.cons_append]
      rw [decompressLoop_med f cur b0 b1 _ hsent,
        decompressLoop_med f cur b0 b1 rest hsent, ih]
  | big c0 c1 c2 c3 rest _ _ _ _ _ ih =>
    intro fuel cur
    cases fuel with
    | zero => simp [decompressLoop]
    | succ f =>
      simp only [List.cons_append]
      rw [decompressLoop_big f cur c0 c1 c2 c3 _,
        decompressLoop_big f cur c0 c1 c2 c3 rest, ih]

/-- Claim C3: for every byte stream made of whole encoded samples
followed by a truncated escape sequence, `decompressData` returns
exactly the samples produced before the truncation (it is a total
function: no error is ever raised for a short stream). -/
theorem decompressData_truncated_partial (B t : List Nat) (w h : Int)
    (hB : Tokens B) (ht : IncompleteEscape t) :
    decompressData (B ++ t) w h = decompressData B w h := by
  unfold decompressData
  exact decompressLoop_append_incomplete hB ht _ 0

/-- Witness for C3: one 8-bit sample followed by a dangling escape byte. -/
theorem decompressData_truncated_partial_witness :
    Tokens [5] ∧ IncompleteEscape [128] ∧
      decompressData ([5] ++ [128]) 1 2 = decompressData [5] 1 2 :=
  ⟨Tokens.small 5 [] (by decide) (by decide) Tokens.nil,
   Or.inl rfl,
   decompressData_truncated_partial [5] [128] 1 2
     (Tokens.small 5 [] (by decide) (by decide) Tokens.nil) (Or.inl rfl)⟩

/-! ### Claim C9: compressed-size bound -/

theorem compressLoop_length_le (S : List Int) :
    ∀ cur : Int, (compressLoop cur S).length ≤ 7 * S.length := by
  induction S with
  | nil => intro cur; simp [compressLoop]
  | cons pixel rest ih =>
    intro cur
    by_cases h1 : -127 ≤ wrap32 (pixel - cur) ∧ wrap32 (pixel - cur) ≤ 127
    · rw [compressLoop_cons_small rest h1]
      have := ih pixel
      simp only [List.length_cons]
      omega
    · by_cases h2 : -32767 ≤ wrap32 (pixel - cur) ∧ wrap32 (pixel - cur) ≤ 32767
      · rw [compressLoop_cons_med rest h1 h2]
        have := ih pixel
        simp only [writeInt16LE, List.length_cons, List.length_append, List.length_cons,
          List.length_nil]
        omega
      · rw [compressLoop_cons_big rest h1 h2]
        have := ih pixel
        simp only [writeInt16LE, writeInt32LE, List.length_cons, List.length_append,
          List.length_nil]
        omega

/-- Claim C9: the output of `compressData` is at most `7 * len(S)` bytes
(each sample emits exactly 1, 3 or 7 bytes); in particular the empty
sequence compresses to the empty byte sequence. -/
theorem compressData_length_bound (S : List Int) :
    (compressData S).length ≤ 7 * S.length ∧ compressData ([] : List Int) = [] :=
  ⟨compressLoop_length_le S 0, rfl⟩

/-! ### Claim C10: output-count bound -/

theorem decompressLoop_length_le (fuel : Nat) :
    ∀ (cur : Int) (bs : List Nat), (decompressLoop fuel cur bs).length ≤ fuel := by
  induction fuel with
  | zero => intro cur bs; simp [decompressLoop]
  | succ f ih =>
    intro cur bs
    rcases bs with _ | ⟨b, rest⟩
    · simp [decompressLoop]
    · by_cases hb : b = 128
      · subst hb
        rcases rest with _ | ⟨b0, rest1⟩
        · simp [decompressLoop]
        · rcases rest1 with _ | ⟨b1, rest2⟩
          · simp [decompressLoop]
          · by_cases hs : b0 + b1 * 256 = 32768
            · rcases rest2 with _ | ⟨c0, _ | ⟨c1, _ | ⟨c2, _ | ⟨c3, rest3⟩⟩⟩⟩
              · simp [decompressLoop, hs]
              · simp [decompressLoop, hs]
              · simp [decompressLoop, hs]
              · simp [decompressLoop, hs]
              · simp only [decompressLoop, if_pos rfl, if_pos hs, List.length_cons]
                exact Nat.succ_le_succ (ih _ _)
            · rw [decompressLoop_med f cur b0 b1 rest2 hs]
              simp only [List.length_cons]
              exact Nat.succ_le_succ (ih _ _)
      · rw [decompressLoop_small f cur b rest hb]
        simp only [List.length_cons]
        exact Nat.succ_le_succ (ih _ _)

/-- Counterexample for C10 as stated: with a negative dimension the loop
bound `data.size() < width * height` converts the negative `int` product
to a huge `size_t`, so a sample is produced even though `width * height`
is `-1`. -/
theorem decompressData_count_counterexample :
    (decompressData [0] (-1) 1).length = 1 ∧
      ¬ (((decompressData [0] (-1) 1).length : Int) ≤ (-1) * 1) := by
  decide

/-- Claim C10 (amended): for all nonnegative dimensions whose product is
within the positive `int` range, `decompressData` returns at most
`width * height` samples, however many deltas the byte stream encodes. -/
theorem decompressData_length_bound (bs : List Nat) (w h : Int)
    (hw : 0 ≤ w) (hh : 0 ≤ h) (hr : w * h < 2147483648) :
    ((decompressData bs w h).length : Int) ≤ w * h := by
  unfold decompressData expectedCountSizeT
  have h0 : 0 ≤ w * h := mul_nonneg hw hh
  rw [wrap32_eq_self (by omega) (by omega)]
  have hcnt : ((w * h) % 18446744073709551616).toNat = (w * h).toNat := by omega
  rw [hcnt]
  have := decompressLoop_length_le (w * h).toNat 0 bs
  omega

/-- Witness for the amended C10 at a concrete stream and dimensions. -/
theorem decompressData_length_bound_witness :
    ((0 : Int) ≤ 1 ∧ (0 : Int) ≤ 2) ∧
      ((decompressData [0, 0, 0] 1 2).length : Int) ≤ 1 * 2 :=
  ⟨⟨by decide, by decide⟩,
    decompressData_length_bound [0, 0, 0] 1 2 (by decide) (by decide) (by decide)⟩

/-! ### Byte-string infrastructure for the frame layer -/

/-- The bytes of an ASCII string literal. -/
def strBytes (s : String) : List Nat := s.data.map (fun c => c.toNat)

/-- `CBFFrame::CBF_MAGIC`: `{0x0C, 0x1A, 0x04, 0xD5}`. -/
def CBF_MAGIC : List Nat := [12, 26, 4, 213]

/-- `CBFFrame::CBF_TAIL`: 4095 zero bytes followed by the closing
delimiter block. -/
def CBF_TAIL : List Nat :=
  List.replicate 4095 0 ++ strBytes "\r\n--CIF-BINARY-FORMAT-SECTION----\r\n;\r\n\r\n"

/-! ### MD5 (`CBFFrame::md5Transform`/`md5Update`/`md5Final`) -/

/-- The 4-word MD5 state. -/
structure MD5State where
  a : Nat
  b : Nat
  c : Nat
  d : Nat
deriving DecidableEq

/-- MD5 per-round additive constants `k`. -/
def md5K : List Nat :=
  [0xd76aa478, 0xe8c7b756, 0x242070db, 0xc1bdceee, 0xf57c0faf, 0x4787c62a, 0xa8304613, 0xfd469501,
   0x698098d8, 0x8b44f7af, 0xffff5bb1, 0x895cd7be, 0x6b901122, 0xfd987193, 0xa679438e, 0x49b40821,
   0xf61e2562, 0xc040b340, 0x265e5a51, 0xe9b6c7aa, 0xd62f105d, 0x02441453, 0xd8a1e681, 0xe7d3fbc8,
   0x21e1cde6, 0xc33707d6, 0xf4d50d87, 0x455a14ed, 0xa9e3e905, 0xfcefa3f8, 0x676f02d9, 0x8d2a4c8a,
   0xfffa3942, 0x8771f681, 0x6d9d6122, 0xfde5380c, 0xa4beea44, 0x4bdecfa9, 0xf6bb4b60, 0xbebfbc70,
   0x289b7ec6, 0xeaa127fa, 0xd4ef3085, 0x04881d05, 0xd9d4d039, 0xe6db99e5, 0x1fa27cf8, 0xc4ac5665,
   0xf4292244, 0x432aff97, 0xab9423a7, 0xfc93a039, 0x655b59c3, 0x8f0ccc92, 0xffeff47d, 0x85845dd1,
   0x6fa87e4f, 0xfe2ce6e0, 0xa3014314, 0x4e0811a1, 0xf7537e82, 0xbd3af235, 0x2ad7d2bb, 0xeb86d391]

/-- MD5 per-round left-rotation amounts `s`. -/
def md5S : List Nat :=
  [7, 12, 17, 22, 7, 12, 17, 22, 7, 12, 17, 22, 7, 12, 17, 22,
   5,  9, 14, 20, 5,  9, 14, 20, 5,  9, 14, 20, 5,  9, 14, 20,
   4, 11, 16, 23, 4, 11, 16, 23, 4, 11, 16, 23, 4, 11, 16, 23,
   6, 10, 15, 21, 6, 10, 15, 21, 6, 10, 15, 21, 6, 10, 15, 21]

/-- `ROTLEFT` on a 32-bit value. -/
def rotl32 (v n : Nat) : Nat := ((v <<< n) % 4294967296) ||| (v >>> (32 - n))

/-- `CBFFrame::md5Transform`: one 64-byte block. -/
def md5Transform (st : MD5State) (block : List Nat) : MD5State :=
  let x : Nat → Nat := fun g =>
    block.getD (4 * g) 0 ||| (block.getD (4 * g + 1) 0 <<< 8) |||
      (block.getD (4 * g + 2) 0 <<< 16) ||| (block.getD (4 * g + 3) 0 <<< 24)
  let r := (List.range 64).foldl (fun (s : Nat × Nat × Nat × Nat) i =>
    let a := s.1
    let b := s.2.1
    let c := s.2.2.1
    let d := s.2.2.2
    let f :=
      if i < 16 then (b &&& c) ||| ((b ^^^ 4294967295) &&& d)
      else if i < 32 then (b &&& d) ||| (c &&& (d ^^^ 4294967295))
      else if i < 48 then b ^^^ c ^^^ d
      else c ^^^ (b ||| (d ^^^ 4294967295))
    let g :=
      if i < 16 then i
      else if i < 32 then (5 * i + 1) % 16
      else if i < 48 then (3 * i + 5) % 16
      else (7 * i) % 16
    let fv := (f + a + md5K.getD i 0 + x g) % 4294967296
    (d, (b + rotl32 fv (md5S.getD i 0)) % 4294967296, b, c)) (st.a, st.b, st.c, st.d)
  ⟨(st.a + r.1) % 4294967296, (st.b + r.2.1) % 4294967296,
   (st.c + r.2.2.1) % 4294967296, (st.d + r.2.2.2) % 4294967296⟩

/-- Overwrite `buf` starting at index `i` with `xs` (a `memcpy`). -/
def setRange (buf : List Nat) (i : Nat) (xs : List Nat) : List Nat :=
  buf.take i ++ xs ++ buf.drop (i + xs.length)

/-- Process consecutive whole 64-byte blocks of `l`
(the middle loop of `CBFFrame::md5Update`). -/
def transformChunks (st : MD5State) (l : List Nat) : MD5State :=
  if _h : 64 ≤ l.length then transformChunks (md5Transform st (l.take 64)) (l.drop 64)
  else st
termination_by l.length
decreasing_by simp [List.length_drop]; omega

/-- `CBFFrame::md5Update` over explicit `(state, count, buffer)`. -/
def md5Update (st : MD5State) (count : Nat) (buffer : List Nat) (input : List Nat) :
    MD5State × Nat × List Nat :=
  let bufferIndex := count % 64
  let count2 := (count + input.length) % 18446744073709551616
  if 64 ≤ bufferIndex + input.length then
    let firstChunk := 64 - bufferIndex
    let buf1 := setRange buffer bufferIndex (input.take firstChunk)
    let st1 := md5Transform st buf1
    let st2 := transformChunks st1 (input.drop firstChunk)
    let remaining := input.length - (input.length - firstChunk) / 64 * 64 - firstChunk
    let buf2 := setRange buf1 0 ((input.drop (input.length - remaining)).take remaining)
    (st2, count2, buf2)
  else
    (st, count2, setRange buffer bufferIndex input)

/-- The 8 little-endian bytes of `count * 8` (the message bit length as a
`uint64_t`). -/
def md5LenBytes (count : Nat) : List Nat :=
  (List.range 8).map (fun i => (((count * 8) % 18446744073709551616) >>> (i * 8)) &&& 255)

/-- The 16 digest bytes of a final state, little-endian per word. -/
def md5DigestBytes (st : MD5State) : List Nat :=
  [st.a &&& 255, (st.a >>> 8) &&& 255, (st.a >>> 16) &&& 255, (st.a >>> 24) &&& 255,
   st.b &&& 255, (st.b >>> 8) &&& 255, (st.b >>> 16) &&& 255, (st.b >>> 24) &&& 255,
   st.c &&& 255, (st.c >>> 8) &&& 255, (st.c >>> 16) &&& 255, (st.c >>> 24) &&& 255,
   st.d &&& 255, (st.d >>> 8) &&& 255, (st.d >>> 16) &&& 255, (st.d >>> 24) &&& 255]

/-- `CBFFrame::md5Final`: padding, bit length, final transform, digest. -/
def md5Final (st : MD5State) (count : Nat) (buffer : List Nat) : List Nat :=
  let bufferIndex := count % 64
  let buf1 := setRange buffer bufferIndex [128]
  let bi := bufferIndex + 1
  if 56 < bi then
    let bufA := setRange buf1 bi (List.replicate (64 - bi) 0)
    let stA := md5Transform st bufA
    let bufB := setRange bufA 0 (List.replicate 56 0)
    let bufC := setRange bufB 56 (md5LenBytes count)
    md5DigestBytes (md5Transform stA bufC)
  else
    let bufA := setRange buf1 bi (List.replicate (56 - bi) 0)
    let bufC := setRange bufA 56 (md5LenBytes count)
    md5DigestBytes (md5Transform st bufC)

/-- The base64 alphabet used by `CBFFrame::bytesToBase64`. -/
def b64chars : List Nat :=
  strBytes "ABCDEFGHIJKLMNOPQRSTUVWXYZabcdefghijklmnopqrstuvwxyz0123456789+/"

/-- `CBFFrame::bytesToBase64` with standard `=` padding (61 is the byte
for the padding character). -/
def bytesToBase64 : List Nat → List Nat
  | [] => []
  | [b0] =>
    let chunk := b0 <<< 16
    [b64chars.getD ((chunk >>> 18) &&& 63) 0, b64chars.getD ((chunk >>> 12) &&& 63) 0, 61, 61]
  | [b0, b1] =>
    let chunk := (b0 <<< 16) ||| (b1 <<< 8)
    [b64chars.getD ((chunk >>> 18) &&& 63) 0, b64chars.getD ((chunk >>> 12) &&& 63) 0,
     b64chars.getD ((chunk >>> 6) &&& 63) 0, 61]
  | b0 :: b1 :: b2 :: rest =>
    let chunk := (b0 <<< 16) ||| (b1 <<< 8) ||| b2
    b64chars.getD ((chunk >>> 18) &&& 63) 0 :: b64chars.getD ((chunk >>> 12) &&& 63) 0 ::
      b64chars.getD ((chunk >>> 6) &&& 63) 0 :: b64chars.getD (chunk &&& 63) 0 ::
        bytesToBase64 rest

/-- `CBFFrame::generateMD5`: MD5 of `data`, base64-encoded. -/
def generateMD5 (data : List Nat) : List Nat :=
  let u := md5Update ⟨0x67452301, 0xEFCDAB89, 0x98BADCFE, 0x10325476⟩ 0
    (List.replicate 64 0) data
  bytesToBase64 (md5Final u.1 u.2.1 u.2.2)

/-! ### The frame data model and the write path -/

/-- The `CBFFrame` data fields: `header`, `data` (pixels), `width`,
`height`.  Dimensions are C++ `int`s, hence `Int`. -/
structure Frame where
  header : List Nat
  data : List Int
  width : Int
  height : Int
deriving DecidableEq

/-- Decimal representation (as bytes) of a `Nat` streamed with `<<`. -/
def numBytesN (n : Nat) : List Nat := strBytes (toString n)

/-- Decimal representation (as bytes) of an `Int` streamed with `<<`. -/
def numBytesI (i : Int) : List Nat := strBytes (toString i)

/-- `std::isspace` on a byte. -/
def isSpaceByte (c : Nat) : Bool :=
  c = 32 || c = 9 || c = 10 || c = 11 || c = 12 || c = 13

/-- Index of the last element satisfying `p` (`find_last_of`). -/
def findLastIdx (p : Nat → Bool) : List Nat → Option Nat
  | [] => none
  | c :: t =>
    match findLastIdx p t with
    | some i => some (i + 1)
    | none => if p c then some 0 else none

/-- `CBFFrame::extractBaseName`: strip the directory part, strip a
trailing `.cbf` extension, replace whitespace by underscores. -/
def extractBaseName (filepath : List Nat) : List Nat :=
  let fn :=
    match findLastIdx (fun c => c = 47 || c = 92) filepath with
    | none => filepath
    | some i => filepath.drop (i + 1)
  let fn2 :=
    match findLastIdx (fun c => c = 46) fn with
    | some d => if fn.drop d = strBytes ".cbf" then fn.take d else fn
    | none => fn
  fn2.map (fun c => if isSpaceByte c then 95 else c)

/-- `CBFFrame::generateCbfPrefix`. -/
def generateCbfPrefix (filename : List Nat) : List Nat :=
  strBytes "###CBF: VERSION 1.5 generated by nanocbf\r\ndata_" ++
    extractBaseName filename ++ strBytes "\r\n\r\n"

/-- `CBFFrame::generateDefaultHeader`. -/
def generateDefaultHeader : List Nat :=
  strBytes "_array_data.header_convention \"nanocbf empty\"\r\n_array_data.header_contents\r\n;\r\n;\r\n\r\n"

/-- `CBFFrame::generateArrayDataSection` (uses the frame's `width` and
`height` fields and the compressed payload). -/
def generateArrayDataSection (width height : Int) (compressedData : List Nat) : List Nat :=
  strBytes "_array_data.data\r\n;\r\n--CIF-BINARY-FORMAT-SECTION--\r\nContent-Type: application/octet-stream;\r\n     conversions=\"x-CBF_BYTE_OFFSET\"\r\nContent-Transfer-Encoding: BINARY\r\nX-Binary-Size: " ++
    numBytesN compressedData.length ++
    strBytes "\r\nX-Binary-ID: 1\r\nX-Binary-Element-Type: \"signed 32-bit integer\"\r\nX-Binary-Element-Byte-Order: LITTLE_ENDIAN\r\nContent-MD5: " ++
    generateMD5 compressedData ++
    strBytes "\r\nX-Binary-Number-of-Elements: " ++
    numBytesI (wrap32 (width * height)) ++
    strBytes "\r\nX-Binary-Size-Fastest-Dimension: " ++
    numBytesI width ++
    strBytes "\r\nX-Binary-Size-Second-Dimension: " ++
    numBytesI height ++
    strBytes "\r\nX-Binary-Size-Padding: 4095\r\n\r\n"

/-- `CBFFrame::write`: `none` models the `return false` of the guard
`data.empty() || width == 0 || height == 0` (file-opening I/O is
abstracted away); otherwise the exact bytes written to the file. -/
def write (fr : Frame) (filename : List Nat) : Option (List Nat) :=
  if fr.data = [] ∨ fr.width = 0 ∨ fr.height = 0 then none
  else
    let compressed := compressData fr.data
    let headerToWrite := if fr.header = [] then generateDefaultHeader else fr.header
    some (generateCbfPrefix filename ++
      (headerToWrite ++
        (generateArrayDataSection fr.width fr.height compressed ++
          (CBF_MAGIC ++ (compressed ++ CBF_TAIL)))))

/-! ### The read path -/

/-- `std::string::find` / `std::search` from position 0: index of the
first occurrence of `pat` in `s` (full match required). -/
def findSubstrAux (pat : List Nat) : List Nat → Nat → Option Nat
  | [], i => if pat = [] then some i else none
  | b :: t, i =>
    if (b :: t).take pat.length = pat then some i else findSubstrAux pat t (i + 1)

/-- First occurrence of `pat` in `s`. -/
def findSubstr (pat s : List Nat) : Option Nat := findSubstrAux pat s 0

/-- First occurrence of `pat` in `s` at a position `≥ start`
(`find(pat, start)`). -/
def findFrom (pat s : List Nat) (start : Nat) : Option Nat :=
  (findSubstr pat (s.drop start)).map (fun k => k + start)

/-- Number of leading `'\r'`/`'\n'` bytes (the header-start skip loop). -/
def countLeadingEol : List Nat → Nat
  | [] => 0
  | c :: t => if c = 13 || c = 10 then countLeadingEol t + 1 else 0

/-- `substr pos cnt` on a byte list. -/
def sub (s : List Nat) (pos cnt : Nat) : List Nat := (s.drop pos).take cnt

/-- `\s` of the field regexes. -/
def isWsByte (c : Nat) : Bool :=
  c = 32 || c = 9 || c = 10 || c = 11 || c = 12 || c = 13

/-- `\d` of the field regexes. -/
def isDigitByte (c : Nat) : Bool := 48 ≤ c && c ≤ 57

/-- Numeric value of a digit run (`std::stoi` on the captured digits;
values beyond `int` range do not occur in the inputs considered here). -/
def digitsVal (ds : List Nat) : Nat := ds.foldl (fun acc c => acc * 10 + (c - 48)) 0

/-- Match `label` followed by `\s+(\d+)` at the head of `s`, as the
ECMAScript regex engine does (the whitespace run is maximal and must be
followed by at least one digit; the digit run is maximal). -/
def matchFieldAt (label s : List Nat) : Option Nat :=
  if s.take label.length = label then
    let rest := s.drop label.length
    let ws := rest.takeWhile isWsByte
    if ws.length = 0 then none
    else
      let ds := (rest.drop ws.length).takeWhile isDigitByte
      if ds = [] then none else some (digitsVal ds)
  else none

/-- `std::regex_search` for `label\s+(\d+)`: leftmost position where the
whole pattern matches. -/
def findField (label : List Nat) : List Nat → Option Nat
  | [] => none
  | c :: t =>
    match matchFieldAt label (c :: t) with
    | some v => some v
    | none => findField label t

/-- `CBFFrame::parseBinaryInfo` (the optional `Content-MD5` match is
parsed and discarded in the source, so it is omitted here). -/
def parseBinaryInfo (bh : List Nat) : Except String (Nat × Nat × Nat) :=
  match findField (strBytes "X-Binary-Size-Fastest-Dimension:") bh with
  | none => .error "Could not find width in header"
  | some w =>
    match findField (strBytes "X-Binary-Size-Second-Dimension:") bh with
    | none => .error "Could not find height in header"
    | some h =>
      match findField (strBytes "X-Binary-Size:") bh with
      | none => .error "Could not find data size in header"
      | some ds => .ok (w, h, ds)

/-- The start of the user header: one past the end of the `data_` line,
then past any run of line-ending bytes. -/
def headerStartOf (F : List Nat) (dataEndPos : Nat) : Nat :=
  dataEndPos + 1 + countLeadingEol (F.drop (dataEndPos + 1))

/-- The extracted user header: `substr(headerStartPos, arrayDataPos -
headerStartPos)`.  The `else` arm models the `size_t` underflow of the
count when `headerStartPos > arrayDataPos` (the huge count makes
`substr` take everything to the end). -/
def extractHeader (F : List Nat) (arrayDataPos dataEndPos : Nat) : List Nat :=
  if headerStartOf F dataEndPos ≤ arrayDataPos then
    sub F (headerStartOf F dataEndPos) (arrayDataPos - headerStartOf F dataEndPos)
  else F.drop (headerStartOf F dataEndPos)

/-- The section-locating and metadata-parsing part of `CBFFrame::read`
(everything before the truncation check), returning the extracted user
header, `width`, `height`, the declared `X-Binary-Size`, and the index
of the first payload byte (right after the magic bytes). -/
def readHeaderInfo (F : List Nat) : Except String (List Nat × Nat × Nat × Nat × Nat) :=
  match findSubstr (strBytes "_array_data.data") F with
  | none => .error "Could not find _array_data.data section"
  | some arrayDataPos =>
    match findFrom (strBytes "--CIF-BINARY-FORMAT-SECTION--") F arrayDataPos with
    | none => .error "Could not find --CIF-BINARY-FORMAT-SECTION-- marker"
    | some binaryStartPos =>
      match findFrom (strBytes "--CIF-BINARY-FORMAT-SECTION----") F binaryStartPos with
      | none => .error "Could not find --CIF-BINARY-FORMAT-SECTION---- end marker"
      | some binaryEndPos =>
        match findSubstr (strBytes "data_") F with
        | none => .error "Could not find data_ section"
        | some dataPos =>
          match findFrom (strBytes "\n") F dataPos with
          | none => .error "Could not find end of data_ line"
          | some dataEndPos =>
            match parseBinaryInfo (sub F binaryStartPos (binaryEndPos - binaryStartPos)) with
            | .error e => .error e
            | .ok (w, h, ds) =>
              match findFrom CBF_MAGIC F binaryStartPos with
              | none => .error "Could not find CBF magic number after binary section header"
              | some magicPos =>
                .ok (extractHeader F arrayDataPos dataEndPos, w, h, ds, magicPos + 4)

/-- `CBFFrame::read` on the file contents: header locating/parsing,
truncation check, decompression. -/
def read (F : List Nat) : Except String Frame :=
  match readHeaderInfo F with
  | .error e => .error e
  | .ok (header, w, h, ds, start) =>
    if F.length < start + ds then .error "File truncated - not enough binary data"
    else .ok ⟨header, decompressData (sub F start ds) w h, (w : Int), (h : Int)⟩



instance instDecEqExcept {α β : Type} [DecidableEq α] [DecidableEq β] :
    DecidableEq (Except α β) := fun a b =>
  match a, b with
  | .error x, .error y =>
    if h : x = y then .isTrue (by rw [h]) else .isFalse (by simp [h])
  | .ok x, .ok y =>
    if h : x = y then .isTrue (by rw [h]) else .isFalse (by simp [h])
  | .error _, .ok _ => .isFalse (by simp)
  | .ok _, .error _ => .isFalse (by simp)

/-! ### Claim C8: digest known value -/

set_option maxRecDepth 8000 in
/-- Claim C8: the digest of the empty byte sequence, base64-encoded with
`=` padding, is the standard MD5 of empty input. -/
theorem generateMD5_empty :
    generateMD5 [] = strBytes "1B2M2Y8AsgTpgAmY7PhCfg==" := by decide

/-! ### Claim C5: the write precondition -/

/-- Counterexample for C5 as stated: a frame with `width = -1` (not
positive) and non-empty pixels is NOT rejected — the guard in
`CBFFrame::write` tests `width == 0`, not `width <= 0`. -/
theorem write_negative_dims_counterexample :
    (write ⟨[], [1], -1, 1⟩ (strBytes "t.cbf")).isSome = true := by decide

/-- Claim C5 (amended): `write` fails (and writes nothing) when the
pixel sequence is empty, or `width = 0`, or `height = 0`; negative
dimensions pass the guard. -/
theorem write_guard (fr : Frame) (fn : List Nat)
    (h : fr.data = [] ∨ fr.width = 0 ∨ fr.height = 0) :
    write fr fn = none := by
  unfold write
  rw [if_pos h]

/-- Witness for the amended C5 at a frame with empty pixels. -/
theorem write_guard_witness :
    (([] : List Int) = [] ∨ (2 : Int) = 0 ∨ (2 : Int) = 0) ∧
      write ⟨strBytes "h", [], 2, 2⟩ (strBytes "t.cbf") = none :=
  ⟨Or.inl rfl, write_guard ⟨strBytes "h", [], 2, 2⟩ (strBytes "t.cbf") (Or.inl rfl)⟩

/-! ### Claim C6: truncated payload -/

theorem findSubstrAux_some_bound {pat : List Nat} {s : List Nat} {i r : Nat}
    (h : findSubstrAux pat s i = some r) :
    i ≤ r ∧ r - i + pat.length ≤ s.length := by
  induction s generalizing i with
  | nil =>
    unfold findSubstrAux at h
    split at h
    · next hp =>
      obtain rfl : i = r := by simpa using h
      simp [hp]
    · simp at h
  | cons b t ih =>
    unfold findSubstrAux at h
    split at h
    · next hp =>
      obtain rfl : i = r := by simpa using h
      have : pat.length ≤ (b :: t).length := by
        conv_lhs => rw [← hp]
        simp [List.length_take]
      omega
    · have := ih h
      simp only [List.length_cons]
      omega

theorem readHeaderInfo_start_le {F hdr : List Nat} {w h ds st : Nat}
    (hok : readHeaderInfo F = .ok (hdr, w, h, ds, st)) : st ≤ F.length := by
  unfold readHeaderInfo at hok
  rcases e1 : findSubstr (strBytes "_array_data.data") F with _ | arrayDataPos
  · simp [e1] at hok
  simp only [e1] at hok
  rcases e2 : findFrom (strBytes "--CIF-BINARY-FORMAT-SECTION--") F arrayDataPos with _ | bs
  · simp [e2] at hok
  simp only [e2] at hok
  rcases e3 : findFrom (strBytes "--CIF-BINARY-FORMAT-SECTION----") F bs with _ | be
  · simp [e3] at hok
  simp only [e3] at hok
  rcases e4 : findSubstr (strBytes "data_") F with _ | dataPos
  · simp [e4] at hok
  simp only [e4] at hok
  rcases e5 : findFrom (strBytes "\n") F dataPos with _ | dataEndPos
  · simp [e5] at hok
  simp only [e5] at hok
  rcases e6 : parseBinaryInfo (sub F bs (be - bs)) with e | whd
  · simp [e6] at hok
  simp only [e6] at hok
  obtain ⟨w', h', ds'⟩ := whd
  rcases e7 : findFrom CBF_MAGIC F bs with _ | magicPos
  · simp [e7] at hok
  simp only [e7] at hok
  obtain ⟨-, -, -, -, rfl⟩ : extractHeader F arrayDataPos dataEndPos = hdr ∧ w' = w ∧
      h' = h ∧ ds' = ds ∧ magicPos + 4 = st := by
    simpa using hok
  unfold findFrom at e7
  obtain ⟨k, hk, rfl⟩ : ∃ k, findSubstr CBF_MAGIC (F.drop bs) = some k ∧
      magicPos = k + bs := by
    rcases hfs : findSubstr CBF_MAGIC (F.drop bs) with _ | k <;> rw [hfs] at e7
    · simp at e7
    · exact ⟨k, rfl, by simpa using e7.symm⟩
  have hb := findSubstrAux_some_bound hk
  have hlen : (F.drop bs).length = F.length - bs := by simp
  have hml : CBF_MAGIC.length = 4 := by decide
  omega

/-- Claim C6: if the header parses successfully but the declared
`X-Binary-Size` exceeds the bytes available after the 4-byte magic
sequence, `read` fails with the truncation error. -/
theorem read_truncated {F hdr : List Nat} {w h ds st : Nat}
    (hok : readHeaderInfo F = .ok (hdr, w, h, ds, st))
    (hts : F.length - st < ds) :
    read F = .error "File truncated - not enough binary data" := by
  have hst := readHeaderInfo_start_le hok
  unfold read
  simp only [hok]
  rw [if_pos (by omega)]

/-! ### Claim C7: missing-section failure -/

/-- The section-marker absences enumerated by the claim, in the order
`CBFFrame::read` tests them. -/
def MissingSection (F : List Nat) : Prop :=
  findSubstr (strBytes "_array_data.data") F = none ∨
    (∃ p, findSubstr (strBytes "_array_data.data") F = some p ∧
      findFrom (strBytes "--CIF-BINARY-FORMAT-SECTION--") F p = none) ∨
    (∃ p q, findSubstr (strBytes "_array_data.data") F = some p ∧
      findFrom (strBytes "--CIF-BINARY-FORMAT-SECTION--") F p = some q ∧
      findFrom (strBytes "--CIF-BINARY-FORMAT-SECTION----") F q = none) ∨
    (∃ p q r, findSubstr (strBytes "_array_data.data") F = some p ∧
      findFrom (strBytes "--CIF-BINARY-FORMAT-SECTION--") F p = some q ∧
      findFrom (strBytes "--CIF-BINARY-FORMAT-SECTION----") F q = some r ∧
      findSubstr (strBytes "data_") F = none)

/-- Claim C7: a buffer missing the array-data declaration (or the
opening delimiter, closing delimiter, or `data_` line) makes `read`
fail with the corresponding format error — it neither crashes (the
model is a total function) nor returns a frame. -/
theorem read_missing_section (F : List Nat) (hm : MissingSection F) :
    ∃ e, read F = .error e ∧
      (e = "Could not find _array_data.data section" ∨
       e = "Could not find --CIF-BINARY-FORMAT-SECTION-- marker" ∨
       e = "Could not find --CIF-BINARY-FORMAT-SECTION---- end marker" ∨
       e = "Could not find data_ section") := by
  unfold read readHeaderInfo
  rcases hm with h1 | ⟨p, h1, h2⟩ | ⟨p, q, h1, h2, h3⟩ | ⟨p, q, r, h1, h2, h3, h4⟩
  · simp only [h1]
    exact ⟨_, rfl, Or.inl rfl⟩
  · simp only [h1, h2]
    exact ⟨_, rfl, Or.inr (Or.inl rfl)⟩
  · simp only [h1, h2, h3]
    exact ⟨_, rfl, Or.inr (Or.inr (Or.inl rfl))⟩
  · simp only [h1, h2, h3, h4]
    exact ⟨_, rfl, Or.inr (Or.inr (Or.inr rfl))⟩

/-- Witness for C7: a buffer with no array-data declaration at all. -/
theorem read_missing_section_witness :
    MissingSection (strBytes "hello world") ∧
      (∃ e, read (strBytes "hello world") = .error e ∧
        (e = "Could not find _array_data.data section" ∨
         e = "Could not find --CIF-BINARY-FORMAT-SECTION-- marker" ∨
         e = "Could not find --CIF-BINARY-FORMAT-SECTION---- end marker" ∨
         e = "Could not find data_ section")) :=
  ⟨Or.inl (by decide), read_missing_section (strBytes "hello world") (Or.inl (by decide))⟩

/-- A concrete buffer whose metadata declares `X-Binary-Size: 99` while
only 3 bytes follow the magic sequence. -/
def truncBuf : List Nat :=
  strBytes "data_x\n_array_data.data\n--CIF-BINARY-FORMAT-SECTION--\nX-Binary-Size-Fastest-Dimension: 2\nX-Binary-Size-Second-Dimension: 2\nX-Binary-Size: 99\n--CIF-BINARY-FORMAT-SECTION----\n" ++
    CBF_MAGIC ++ [1, 2, 3]

set_option maxRecDepth 8000 in
/-- Witness for C6 at `truncBuf`. -/
theorem read_truncated_witness :
    readHeaderInfo truncBuf = .ok ([], 2, 2, 99, 177) ∧
      truncBuf.length - 177 < 99 ∧
      read truncBuf = .error "File truncated - not enough binary data" :=
  ⟨by decide, by decide, @read_truncated truncBuf [] 2 2 99 177 (by decide) (by decide)⟩

/-! ### A little theory of `findSubstr`, used for the frame round trip -/

theorem findSubstrAux_intro (pat : List Nat) :
    ∀ (k : Nat) (s : List Nat) (i : Nat),
      (s.drop k).take pat.length = pat →
      (∀ j < k, (s.drop j).take pat.length ≠ pat) →
      findSubstrAux pat s i = some (i + k) := by
  intro k
  induction k with
  | zero =>
    intro s i hk _
    rcases s with _ | ⟨b, t⟩
    · unfold findSubstrAux
      rw [if_pos (by simpa using hk.symm)]
      simp
    · unfold findSubstrAux
      rw [if_pos (by simpa using hk)]
      simp
  | succ k ih =>
    intro s i hk hmin
    rcases s with _ | ⟨b, t⟩
    · exact absurd (by simpa using hk) (by simpa using hmin 0 (Nat.succ_pos k))
    · unfold findSubstrAux
      rw [if_neg (by simpa using hmin 0 (Nat.succ_pos k))]
      rw [ih t (i + 1) (by simpa using hk)
        (fun j hj => by simpa using hmin (j + 1) (by omega))]
      congr 1
      omega

theorem findSubstr_intro {pat : List Nat} (s : List Nat) (k : Nat)
    (hk : (s.drop k).take pat.length = pat)
    (hmin : ∀ j < k, (s.drop j).take pat.length ≠ pat) :
    findSubstr pat s = some k := by
  have := findSubstrAux_intro pat k s 0 hk hmin
  simpa using this

theorem findSubstrAux_none_spec {pat : List Nat} (hne : pat ≠ []) :
    ∀ (s : List Nat) (i : Nat), findSubstrAux pat s i = none →
      ∀ j, (s.drop j).take pat.length ≠ pat := by
  intro s
  induction s with
  | nil =>
    intro i _ j h
    exact hne (by simpa using h.symm)
  | cons b t ih =>
    intro i h j
    unfold findSubstrAux at h
    split at h
    · simp at h
    · next hcond =>
      rcases j with _ | j
      · simpa using hcond
      · simpa using ih (i + 1) h j

theorem findSubstrAux_some_spec (pat : List Nat) :
    ∀ (s : List Nat) (i r : Nat), findSubstrAux pat s i = some r →
      i ≤ r ∧ (s.drop (r - i)).take pat.length = pat ∧
        ∀ j < r - i, (s.drop j).take pat.length ≠ pat := by
  intro s
  induction s with
  | nil =>
    intro i r h
    unfold findSubstrAux at h
    split at h
    · next hp =>
      obtain rfl : i = r := by simpa using h
      refine ⟨le_rfl, by simpa using hp.symm, by omega⟩
    · simp at h
  | cons b t ih =>
    intro i r h
    unfold findSubstrAux at h
    split at h
    · next hp =>
      obtain rfl : i = r := by simpa using h
      exact ⟨le_rfl, by simpa using hp, by omega⟩
    · next hcond =>
      obtain ⟨h1, h2, h3⟩ := ih (i + 1) r h
      refine ⟨by omega, ?_, ?_⟩
      · have e : r - i = (r - (i + 1)) + 1 := by omega
        rw [e]
        simpa using h2
      · intro j hj
        rcases j with _ | j
        · simpa using hcond
        · have := h3 j (by omega)
          simpa using this

/-- A pattern cannot begin anywhere inside `P` (each candidate start has
a mismatch before `P` ends), so no occurrence can start in `P` even when
more bytes follow. -/
def cannotStartInB (pat P : List Nat) : Bool :=
  (List.range P.length).all fun j =>
    (List.range pat.length).any fun m =>
      decide (j + m < P.length) && decide (¬ P[j + m]? = pat[m]?)

theorem cannotStartInB_spec {pat P : List Nat} (h : cannotStartInB pat P = true) :
    ∀ j < P.length, ∃ m, m < pat.length ∧ j + m < P.length ∧ ¬ P[j + m]? = pat[m]? := by
  intro j hj
  unfold cannotStartInB at h
  rw [List.all_eq_true] at h
  have h2 := h j (List.mem_range.mpr hj)
  rw [List.any_eq_true] at h2
  obtain ⟨m, hm, hmp⟩ := h2
  rw [Bool.and_eq_true, decide_eq_true_eq, decide_eq_true_eq] at hmp
  exact ⟨m, List.mem_range.mp hm, hmp.1, hmp.2⟩

/-- No proper suffix of `pat` is also a prefix of `pat`. -/
def noSelfOverlapB (pat : List Nat) : Bool :=
  (List.range pat.length).all fun t =>
    decide (t = 0) || decide (¬ pat.drop t = pat.take (pat.length - t))

theorem noSelfOverlapB_spec {pat : List Nat} (h : noSelfOverlapB pat = true) :
    ∀ t, 0 < t → t < pat.length → ¬ pat.drop t = pat.take (pat.length - t) := by
  intro t ht1 ht2
  unfold noSelfOverlapB at h
  rw [List.all_eq_true] at h
  have h2 := h t (List.mem_range.mpr ht2)
  rw [Bool.or_eq_true, decide_eq_true_eq, decide_eq_true_eq] at h2
  rcases h2 with h' | h'
  · omega
  · exact h'

theorem drop_append_left {P : List Nat} (s : List Nat) {k : Nat} (hk : k ≤ P.length) :
    (P ++ s).drop k = P.drop k ++ s := by
  rw [List.drop_append_eq_append_drop, Nat.sub_eq_zero_of_le hk, List.drop_zero]

theorem take_append_left {P : List Nat} (s : List Nat) {k : Nat} (hk : k ≤ P.length) :
    (P ++ s).take k = P.take k := by
  rw [List.take_append_eq_append_take, Nat.sub_eq_zero_of_le hk, List.take_zero,
    List.append_nil]

theorem findSubstr_append_left {pat P : List Nat} (s : List Nat) {k : Nat}
    (h1 : findSubstr pat P = some k) (h2 : k + pat.length ≤ P.length) :
    findSubstr pat (P ++ s) = some k := by
  obtain ⟨-, hocc, hmin⟩ := findSubstrAux_some_spec pat P 0 k h1
  rw [Nat.sub_zero] at hocc hmin
  apply findSubstr_intro
  · rw [drop_append_left s (by omega)]
    rw [take_append_left s (by simp [List.length_drop]; omega)]
    exact hocc
  · intro j hj hcon
    rw [drop_append_left s (by omega)] at hcon
    rw [take_append_left s (by simp [List.length_drop]; omega)] at hcon
    exact hmin j hj hcon

theorem findSubstr_boundary {pat : List Nat} (P H X : List Nat)
    (hX : X.take pat.length = pat)
    (hP : cannotStartInB pat P = true)
    (hH : findSubstr pat H = none)
    (hself : noSelfOverlapB pat = true)
    (hne : pat ≠ []) :
    findSubstr pat (P ++ (H ++ X)) = some (P.length + H.length) := by
  apply findSubstr_intro
  · rw [show P.length + H.length = (P ++ H).length from (List.length_append P H).symm,
      ← List.append_assoc, List.drop_left]
    exact hX
  · intro j hj hcon
    by_cases hjP : j < P.length
    · obtain ⟨m, hm, hjm, hne'⟩ := cannotStartInB_spec hP j hjP
      apply hne'
      have e1 : pat[m]? = (((P ++ (H ++ X)).drop j).take pat.length)[m]? := by rw [hcon]
      rw [List.getElem?_take, if_pos hm, List.getElem?_drop, List.getElem?_append,
        if_pos hjm] at e1
      exact e1.symm
    · push_neg at hjP
      have hiH : j - P.length < H.length := by omega
      have hdropj : (P ++ (H ++ X)).drop j = (H ++ X).drop (j - P.length) := by
        rw [List.drop_append_eq_append_drop, List.drop_eq_nil_of_le hjP, List.nil_append]
      rw [hdropj] at hcon
      by_cases hfit : j - P.length + pat.length ≤ H.length
      · rw [drop_append_left X (by omega)] at hcon
        rw [take_append_left X (by simp [List.length_drop]; omega)] at hcon
        exact findSubstrAux_none_spec hne H 0 hH (j - P.length) hcon
      · push_neg at hfit
        have ht1 : 0 < H.length - (j - P.length) := by omega
        have ht2 : H.length - (j - P.length) < pat.length := by omega
        apply noSelfOverlapB_spec hself (H.length - (j - P.length)) ht1 ht2
      -- goal: pat.drop t = pat.take (pat.length - t) with t := H.length - (j - P.length)
        have hdt : pat.drop (H.length - (j - P.length)) =
            X.take (pat.length - (H.length - (j - P.length))) := by
          conv_lhs => rw [← hcon]
          rw [List.drop_take]
          congr 1
          rw [List.drop_drop]
          rw [show (j - P.length) + (H.length - (j - P.length)) = H.length from by omega]
          exact List.drop_left H X
        have hXt : X.take (pat.length - (H.length - (j - P.length))) =
            pat.take (pat.length - (H.length - (j - P.length))) := by
          conv_lhs => rw [show X.take (pat.length - (H.length - (j - P.length))) =
            (X.take pat.length).take (pat.length - (H.length - (j - P.length))) from by
              rw [List.take_take]
              congr 1
              omega]
          rw [hX]
        rw [hdt, hXt]

/-! ### Claim C4: frame-level round trip -/

/-- The fixed prefix `write` emits for target file name `test.cbf`. -/
def rtFileBase : List Nat := generateCbfPrefix (strBytes "test.cbf")

/-- The compressed payload of pixels `[100, 200, 300, 400]`. -/
def rtPayload : List Nat := compressData [100, 200, 300, 400]

/-- Everything `write` emits after the user header for a 2x2 frame with
pixels `[100, 200, 300, 400]`. -/
def rtAfterHeader : List Nat :=
  generateArrayDataSection 2 2 rtPayload ++ (CBF_MAGIC ++ (rtPayload ++ CBF_TAIL))

/-- The bytes of `rtAfterHeader.drop 21` preceding the 4095-byte zero
padding: the rest of the metadata section, the magic, and the payload. -/
def rtConcrete : List Nat :=
  (generateArrayDataSection 2 2 rtPayload).drop 21 ++ (CBF_MAGIC ++ rtPayload)

/-- The trailer text after the zero padding. -/
def rtTailEnd : List Nat := strBytes "\r\n--CIF-BINARY-FORMAT-SECTION----\r\n;\r\n\r\n"

theorem no_match_in_prefix {pat P : List Nat} (s : List Nat)
    (hP : cannotStartInB pat P = true) :
    ∀ j < P.length, ¬ ((P ++ s).drop j).take pat.length = pat := by
  intro j hj hcon
  obtain ⟨m, hm, hjm, hne2⟩ := cannotStartInB_spec hP j hj
  apply hne2
  have e1 : pat[m]? = (((P ++ s).drop j).take pat.length)[m]? := by rw [hcon]
  rw [List.getElem?_take, if_pos hm, List.getElem?_drop, List.getElem?_append,
    if_pos hjm] at e1
  exact e1.symm

theorem match_head_byte {pat L : List Nat} {j : Nat}
    (hcon : (L.drop j).take pat.length = pat) {c : Nat} (hc : pat[0]? = some c) :
    L[j]? = some c := by
  have h0 : 0 < pat.length := by
    rcases pat with _ | ⟨x, xs⟩
    · simp at hc
    · simp
  have e1 : pat[0]? = ((L.drop j).take pat.length)[0]? := by rw [hcon]
  rw [List.getElem?_take, if_pos h0, List.getElem?_drop] at e1
  rw [hc] at e1
  simpa using e1.symm

set_option maxRecDepth 8000 in
theorem rtAfterHeader_drop21 :
    rtAfterHeader.drop 21 = rtConcrete ++ (List.replicate 4095 0 ++ rtTailEnd) := by
  unfold rtAfterHeader rtConcrete rtTailEnd CBF_TAIL
  rw [drop_append_left _
    (by decide : (21 : Nat) ≤ (generateArrayDataSection 2 2 rtPayload).length)]
  rw [List.append_assoc ((generateArrayDataSection 2 2 rtPayload).drop 21)
    (CBF_MAGIC ++ rtPayload), List.append_assoc CBF_MAGIC rtPayload]

set_option maxRecDepth 8000 in
theorem rtAfterHeader_length : rtAfterHeader.length = 4608 := by
  have h1 : (generateArrayDataSection 2 2 rtPayload).length = 465 := by decide
  have h2 : rtPayload.length = 4 := by decide
  have h3 : (strBytes "\r\n--CIF-BINARY-FORMAT-SECTION----\r\n;\r\n\r\n").length = 40 := by
    decide
  have h4 : CBF_MAGIC.length = 4 := by decide
  unfold rtAfterHeader CBF_TAIL
  rw [List.length_append, List.length_append, List.length_append, List.length_append,
    List.length_replicate, h1, h2, h3, h4]

set_option maxRecDepth 8000 in
theorem closeMarker_in_tail :
    findSubstr (strBytes "--CIF-BINARY-FORMAT-SECTION----") (rtAfterHeader.drop 21) =
      some 4549 := by
  rw [rtAfterHeader_drop21]
  have hD : rtConcrete.length = 452 := by decide
  apply findSubstr_intro
  · rw [List.drop_append_eq_append_drop, List.drop_eq_nil_of_le (by omega),
      List.nil_append, hD]
    rw [show (4549 - 452 : Nat) = 4097 from by norm_num]
    rw [List.drop_append_eq_append_drop,
      List.drop_eq_nil_of_le (by rw [List.length_replicate]; omega),
      List.nil_append, List.length_replicate]
    rw [show (4097 - 4095 : Nat) = 2 from by norm_num]
    decide
  · intro j hj hcon
    by_cases hjD : j < 452
    · exact no_match_in_prefix _ (by decide) j (by omega) hcon
    · push_neg at hjD
      have hhead := match_head_byte hcon
        (by decide : (strBytes "--CIF-BINARY-FORMAT-SECTION----")[0]? = some 45)
      rw [List.getElem?_append, if_neg (by omega), hD] at hhead
      rw [List.getElem?_append] at hhead
      by_cases hz : j - 452 < 4095
      · rw [if_pos (by rw [List.length_replicate]; exact hz)] at hhead
        rw [List.getElem?_replicate, if_pos hz] at hhead
        simp at hhead
      · push_neg at hz
        rw [if_neg (by rw [List.length_replicate]; omega), List.length_replicate] at hhead
        have hcases : j - 452 - 4095 = 0 ∨ j - 452 - 4095 = 1 := by omega
        rcases hcases with h | h <;> rw [h] at hhead
        · exact absurd hhead (by decide)
        · exact absurd hhead (by decide)

set_option maxRecDepth 8000 in
/-- Writing a frame whose header is exactly the marker `_array_data.data`
produces a file that `read` parses with an EMPTY extracted header: the
first marker occurrence `read` locates is the one inside the user
header. -/
theorem read_write_marker_header :
    (write ⟨strBytes "_array_data.data", [100, 200, 300, 400], 2, 2⟩
        (strBytes "test.cbf")).map read =
      some (.ok ⟨[], [100, 200, 300, 400], 2, 2⟩) := by
  have hw : write ⟨strBytes "_array_data.data", [100, 200, 300, 400], 2, 2⟩
      (strBytes "test.cbf") =
      some (rtFileBase ++ (strBytes "_array_data.data" ++ rtAfterHeader)) := by
    unfold write rtFileBase rtAfterHeader rtPayload
    rw [if_neg (by decide), if_neg (by decide)]
  rw [hw, Option.map_some']
  have hPlen : rtFileBase.length = 55 := by decide
  have hMlen : (strBytes "_array_data.data").length = 16 := by decide
  have hdrop55 : (rtFileBase ++ (strBytes "_array_data.data" ++ rtAfterHeader)).drop 55 =
      strBytes "_array_data.data" ++ rtAfterHeader := by
    rw [show (55 : Nat) = rtFileBase.length from hPlen.symm, List.drop_left]
  have e1 : findSubstr (strBytes "_array_data.data")
      (rtFileBase ++ (strBytes "_array_data.data" ++ rtAfterHeader)) = some 55 := by
    apply findSubstr_intro
    · rw [hdrop55]
      decide
    · intro j hj hcon
      exact no_match_in_prefix _ (by decide) j (by omega) hcon
  have e2 : findFrom (strBytes "--CIF-BINARY-FORMAT-SECTION--")
      (rtFileBase ++ (strBytes "_array_data.data" ++ rtAfterHeader)) 55 =
      some (37 + 55) := by
    unfold findFrom
    rw [hdrop55,
      (by decide : findSubstr (strBytes "--CIF-BINARY-FORMAT-SECTION--")
        (strBytes "_array_data.data" ++ rtAfterHeader) = some 37)]
    rfl
  have hdrop92 : (rtFileBase ++ (strBytes "_array_data.data" ++ rtAfterHeader)).drop
      (37 + 55) = rtAfterHeader.drop 21 := by
    rw [show (37 + 55 : Nat) = 55 + 37 from by norm_num, ← List.drop_drop, hdrop55,
      List.drop_append_eq_append_drop,
      show (strBytes "_array_data.data").drop 37 = [] from by decide, hMlen,
      show (37 - 16 : Nat) = 21 from by norm_num, List.nil_append]
  have e3 : findFrom (strBytes "--CIF-BINARY-FORMAT-SECTION----")
      (rtFileBase ++ (strBytes "_array_data.data" ++ rtAfterHeader)) (37 + 55) =
      some (4549 + (37 + 55)) := by
    unfold findFrom
    rw [hdrop92, closeMarker_in_tail]
    rfl
  have e4 : findSubstr (strBytes "data_")
      (rtFileBase ++ (strBytes "_array_data.data" ++ rtAfterHeader)) = some 42 :=
    findSubstr_append_left _ (by decide) (by decide)
  have e5 : findFrom (strBytes "\n")
      (rtFileBase ++ (strBytes "_array_data.data" ++ rtAfterHeader)) 42 = some 52 := by
    unfold findFrom
    rw [drop_append_left _ (by decide),
      findSubstr_append_left (strBytes "_array_data.data" ++ rtAfterHeader)
        (by decide : findSubstr (strBytes "\n") (rtFileBase.drop 42) = some 10)
        (by decide)]
    rfl
  have hskip : countLeadingEol
      ((rtFileBase ++ (strBytes "_array_data.data" ++ rtAfterHeader)).drop 53) = 2 := by
    rw [drop_append_left _ (by decide), (by decide : rtFileBase.drop 53 = [13, 10])]
    simp only [List.cons_append, List.nil_append]
    simp [countLeadingEol,
      (by decide : countLeadingEol (strBytes "_array_data.data" ++ rtAfterHeader) = 0)]
  have hhso : headerStartOf
      (rtFileBase ++ (strBytes "_array_data.data" ++ rtAfterHeader)) 52 = 55 := by
    unfold headerStartOf
    rw [hskip]
  have hextract : extractHeader
      (rtFileBase ++ (strBytes "_array_data.data" ++ rtAfterHeader)) 55 52 = [] := by
    unfold extractHeader
    rw [hhso, if_pos (by omega)]
    unfold sub
    simp
  have harith2 : 4549 + (37 + 55) - (37 + 55) = 4549 := by omega
  have hparse : parseBinaryInfo
      ((rtFileBase ++ (strBytes "_array_data.data" ++ rtAfterHeader)).drop (37 + 55)
        |>.take 4549) = .ok (2, 2, 4) := by
    rw [hdrop92]
    decide
  have e7 : findFrom CBF_MAGIC
      (rtFileBase ++ (strBytes "_array_data.data" ++ rtAfterHeader)) (37 + 55) =
      some (444 + (37 + 55)) := by
    unfold findFrom
    rw [hdrop92, (by decide : findSubstr CBF_MAGIC (rtAfterHeader.drop 21) = some 444)]
    rfl
  have hrhi : readHeaderInfo
      (rtFileBase ++ (strBytes "_array_data.data" ++ rtAfterHeader)) =
      .ok ([], 2, 2, 4, 444 + (37 + 55) + 4) := by
    unfold readHeaderInfo
    simp only [e1, e2, e3, e4, e5]
    unfold sub
    simp only [harith2, hparse, e7, hextract]
  unfold read
  simp only [hrhi]
  have hXlen := rtAfterHeader_length
  have hlenF : (rtFileBase ++ (strBytes "_array_data.data" ++ rtAfterHeader)).length =
      rtFileBase.length + ((strBytes "_array_data.data").length + rtAfterHeader.length) := by
    rw [List.length_append, List.length_append]
  rw [if_neg (by omega)]
  have hpayload : sub (rtFileBase ++ (strBytes "_array_data.data" ++ rtAfterHeader))
      (444 + (37 + 55) + 4) 4 = (rtAfterHeader.drop 469).take 4 := by
    unfold sub
    rw [show 444 + (37 + 55) + 4 = (37 + 55) + 448 from by norm_num, ← List.drop_drop,
      hdrop92, List.drop_drop]
  rw [hpayload,
    (by decide : decompressData ((rtAfterHeader.drop 469).take 4) ((2 : Nat) : Int)
      ((2 : Nat) : Int) = [100, 200, 300, 400])]
  norm_num

set_option maxRecDepth 8000 in
/-- Counterexample for C4 as stated: a non-empty header that happens to
contain the marker `_array_data.data` (here, it IS the marker) is not
recovered verbatim — `read` locates the first marker occurrence inside
the user header, so the extracted header differs. -/
theorem frame_roundtrip_counterexample :
    ¬ ((write ⟨strBytes "_array_data.data", [100, 200, 300, 400], 2, 2⟩
          (strBytes "test.cbf")).map read =
        some (.ok ⟨strBytes "_array_data.data", [100, 200, 300, 400], 2, 2⟩)) := by
  rw [read_write_marker_header]
  decide

set_option maxRecDepth 8000 in
/-- Claim C4 (amended): for a frame with a non-empty header that does
not begin with line-ending bytes AND does not contain the marker
`_array_data.data`, with `width = 2`, `height = 2`,
`pixels = [100, 200, 300, 400]`, writing the frame and reading the bytes
back succeeds and yields identical header, width, height, and pixels. -/
theorem frame_roundtrip_amended (h0 : Nat) (Hrest : List Nat)
    (h13 : h0 ≠ 13) (h10 : h0 ≠ 10)
    (hH : findSubstr (strBytes "_array_data.data") (h0 :: Hrest) = none) :
    (write ⟨h0 :: Hrest, [100, 200, 300, 400], 2, 2⟩ (strBytes "test.cbf")).map read =
      some (.ok ⟨h0 :: Hrest, [100, 200, 300, 400], 2, 2⟩) := by
  have hw : write ⟨h0 :: Hrest, [100, 200, 300, 400], 2, 2⟩ (strBytes "test.cbf") =
      some (rtFileBase ++ ((h0 :: Hrest) ++ rtAfterHeader)) := by
    unfold write rtFileBase rtAfterHeader rtPayload
    rw [if_neg (by simp), if_neg (by simp)]
  rw [hw, Option.map_some']
  -- abbreviations for the file bytes and the header-end position
  have hPlen : rtFileBase.length = 55 := by decide
  have hdropAdp : (rtFileBase ++ ((h0 :: Hrest) ++ rtAfterHeader)).drop
      (rtFileBase.length + (h0 :: Hrest).length) = rtAfterHeader := by
    rw [← List.append_assoc, ← List.length_append, List.drop_left]
  have e1 : findSubstr (strBytes "_array_data.data")
      (rtFileBase ++ ((h0 :: Hrest) ++ rtAfterHeader)) =
      some (rtFileBase.length + (h0 :: Hrest).length) :=
    findSubstr_boundary rtFileBase (h0 :: Hrest) rtAfterHeader
      (by decide) (by decide) hH (by decide) (by decide)
  have e2 : findFrom (strBytes "--CIF-BINARY-FORMAT-SECTION--")
      (rtFileBase ++ ((h0 :: Hrest) ++ rtAfterHeader))
      (rtFileBase.length + (h0 :: Hrest).length) =
      some (21 + (rtFileBase.length + (h0 :: Hrest).length)) := by
    unfold findFrom
    rw [hdropAdp,
      (by decide : findSubstr (strBytes "--CIF-BINARY-FORMAT-SECTION--") rtAfterHeader =
        some 21)]
    rfl
  have hdrop21 : (rtFileBase ++ ((h0 :: Hrest) ++ rtAfterHeader)).drop
      (21 + (rtFileBase.length + (h0 :: Hrest).length)) = rtAfterHeader.drop 21 := by
    rw [show 21 + (rtFileBase.length + (h0 :: Hrest).length) =
        (rtFileBase.length + (h0 :: Hrest).length) + 21 from by omega,
      ← List.drop_drop, hdropAdp]
  have e3 : findFrom (strBytes "--CIF-BINARY-FORMAT-SECTION----")
      (rtFileBase ++ ((h0 :: Hrest) ++ rtAfterHeader))
      (21 + (rtFileBase.length + (h0 :: Hrest).length)) =
      some (4549 + (21 + (rtFileBase.length + (h0 :: Hrest).length))) := by
    unfold findFrom
    rw [hdrop21, closeMarker_in_tail]
    rfl
  have e4 : findSubstr (strBytes "data_")
      (rtFileBase ++ ((h0 :: Hrest) ++ rtAfterHeader)) = some 42 :=
    findSubstr_append_left _ (by decide) (by decide)
  have e5 : findFrom (strBytes "\n")
      (rtFileBase ++ ((h0 :: Hrest) ++ rtAfterHeader)) 42 = some 52 := by
    unfold findFrom
    rw [drop_append_left _ (by decide),
      findSubstr_append_left ((h0 :: Hrest) ++ rtAfterHeader)
        (by decide : findSubstr (strBytes "\n") (rtFileBase.drop 42) = some 10) (by decide)]
    rfl
  have hskip : countLeadingEol
      ((rtFileBase ++ ((h0 :: Hrest) ++ rtAfterHeader)).drop 53) = 2 := by
    rw [drop_append_left _ (by decide),
      (by decide : rtFileBase.drop 53 = [13, 10])]
    simp only [List.cons_append, List.nil_append, countLeadingEol]
    simp [h13, h10, countLeadingEol]
  have hhso : headerStartOf (rtFileBase ++ ((h0 :: Hrest) ++ rtAfterHeader)) 52 = 55 := by
    unfold headerStartOf
    rw [hskip]
  have hextract : extractHeader (rtFileBase ++ ((h0 :: Hrest) ++ rtAfterHeader))
      (rtFileBase.length + (h0 :: Hrest).length) 52 = h0 :: Hrest := by
    unfold extractHeader
    rw [hhso, if_pos (by omega)]
    unfold sub
    rw [show (55 : Nat) = rtFileBase.length from hPlen.symm, List.drop_left]
    rw [show rtFileBase.length + (h0 :: Hrest).length - rtFileBase.length =
        (h0 :: Hrest).length from by omega]
    exact List.take_left _ _
  have harith : 4549 + (21 + (rtFileBase.length + (h0 :: Hrest).length)) -
      (21 + (rtFileBase.length + (h0 :: Hrest).length)) = 4549 := by omega
  have hparse : parseBinaryInfo
      ((rtFileBase ++ ((h0 :: Hrest) ++ rtAfterHeader)).drop
          (21 + (rtFileBase.length + (h0 :: Hrest).length)) |>.take 4549) =
      .ok (2, 2, 4) := by
    rw [hdrop21]
    decide
  have e7 : findFrom CBF_MAGIC (rtFileBase ++ ((h0 :: Hrest) ++ rtAfterHeader))
      (21 + (rtFileBase.length + (h0 :: Hrest).length)) =
      some (444 + (21 + (rtFileBase.length + (h0 :: Hrest).length))) := by
    unfold findFrom
    rw [hdrop21, (by decide : findSubstr CBF_MAGIC (rtAfterHeader.drop 21) = some 444)]
    rfl
  have hrhi : readHeaderInfo (rtFileBase ++ ((h0 :: Hrest) ++ rtAfterHeader)) =
      .ok (h0 :: Hrest, 2, 2, 4,
        444 + (21 + (rtFileBase.length + (h0 :: Hrest).length)) + 4) := by
    unfold readHeaderInfo
    simp only [e1, e2, e3, e4, e5]
    unfold sub
    simp only [harith, hparse, e7, hextract]
  unfold read
  simp only [hrhi]
  have hXlen := rtAfterHeader_length
  have hlenF : (rtFileBase ++ ((h0 :: Hrest) ++ rtAfterHeader)).length =
      rtFileBase.length + ((h0 :: Hrest).length + rtAfterHeader.length) := by
    rw [List.length_append, List.length_append]
  rw [if_neg (by omega)]
  have hpayload : sub (rtFileBase ++ ((h0 :: Hrest) ++ rtAfterHeader))
      (444 + (21 + (rtFileBase.length + (h0 :: Hrest).length)) + 4) 4 =
      (rtAfterHeader.drop 469).take 4 := by
    unfold sub
    rw [show 444 + (21 + (rtFileBase.length + (h0 :: Hrest).length)) + 4 =
        (rtFileBase.length + (h0 :: Hrest).length) + 469 from by omega,
      ← List.drop_drop, hdropAdp]
  rw [hpayload,
    (by decide : decompressData ((rtAfterHeader.drop 469).take 4) ((2 : Nat) : Int)
      ((2 : Nat) : Int) = [100, 200, 300, 400])]
  norm_num



/-- Witness for the amended C4 at the concrete header bytes of
`"_local.header"` (non-empty, no leading line ending, no marker). -/
theorem frame_roundtrip_amended_witness :
    ((95 : Nat) ≠ 13 ∧ (95 : Nat) ≠ 10 ∧
        findSubstr (strBytes "_array_data.data") (95 :: strBytes "local.header") = none) ∧
      (write ⟨95 :: strBytes "local.header", [100, 200, 300, 400], 2, 2⟩
          (strBytes "test.cbf")).map read =
        some (.ok ⟨95 :: strBytes "local.header", [100, 200, 300, 400], 2, 2⟩) :=
  ⟨⟨by decide, by decide, by decide⟩,
    frame_roundtrip_amended 95 (strBytes "local.header") (by decide) (by decide) (by decide)⟩

end NanoCBF
